import Mathlib

/-!
Shallow embedding of the GoChat server core (src/server/server.go):
the `ChatRoom` state (client registry, message log, id counter) and the
four RPC handlers `Join`, `Send`, `GetUpdates`, `Leave`, together with the
name allocator `assignName`.  Go's `map[string]*Client` is modelled as an
association list with map-style insert (overwrite), lookup and delete;
Go `int` is modelled as `Int`; `time.Now()` is modelled as an explicit
`now : Nat` parameter supplied to each mutating call.  Fallible handlers
(`Send`, `GetUpdates` return a Go `error`) are modelled with `Except String`.
-/

structure Message where
  ID : Int
  Sender : String
  Content : String
  Time : Nat
deriving Repr, DecidableEq

structure Client where
  ID : String
  LastSeen : Int
  JoinedAt : Nat
  Original : String
deriving Repr, DecidableEq

structure ChatRoom where
  clients : List (String × Client)
  logs : List Message
  nextID : Int
  nameUsage : List (String × Int)
deriving Repr, DecidableEq

def NewChatRoom : ChatRoom :=
  { clients := [], logs := [], nextID := 1, nameUsage := [] }

/-- Lookup in the registry map (`cr.clients[k]`). -/
def lookupKV (l : List (String × Client)) (k : String) : Option Client :=
  match l with
  | [] => none
  | p :: ps => if p.1 == k then some p.2 else lookupKV ps k

/-- The `, exists` part of a Go map lookup. -/
def containsKey (l : List (String × Client)) (k : String) : Bool :=
  (lookupKV l k).isSome

/-- Go `delete(m, k)`: the key is removed entirely. -/
def eraseKey (l : List (String × Client)) (k : String) : List (String × Client) :=
  l.filter (fun p => !(p.1 == k))

/-- Go `m[k] = v`: insert-or-overwrite. -/
def insertKV (l : List (String × Client)) (k : String) (v : Client) :
    List (String × Client) :=
  eraseKey l k ++ [(k, v)]

/-- Go `cl.LastSeen = v` through the `*Client` pointer stored under key `k`. -/
def setLastSeen (l : List (String × Client)) (k : String) (v : Int) :
    List (String × Client) :=
  l.map (fun p => if p.1 == k then (p.1, { p.2 with LastSeen := v }) else p)

/-- The `for i := 1; i <= 99; i++` probe loop of `assignName`, starting at
index `i` with `fuel` iterations remaining. -/
def probe (cs : List (String × Client)) (base : String) (i : Nat) (fuel : Nat) :
    Option String :=
  match fuel with
  | 0 => none
  | fuel + 1 =>
    let candidate := base ++ toString i
    if containsKey cs candidate then probe cs base (i + 1) fuel
    else some candidate

/-- Model of `ChatRoom.assignName`: empty base becomes "Guest"; a free base is kept;
otherwise the first free suffixed candidate base+"1".."99"; otherwise the
time-derived fallback `base + "_" + (now % 9999)`. -/
def assignName (cr : ChatRoom) (base0 : String) (now : Nat) : String :=
  let base := if base0 == "" then "Guest" else base0
  if containsKey cr.clients base = false then base
  else
    match probe cr.clients base 1 99 with
    | some candidate => candidate
    | none => base ++ "_" ++ toString (now % 9999)

structure JoinReply where
  Success : Bool
  AssignedName : String
  Message : String
deriving Repr, DecidableEq

structure SendReply where
  Success : Bool
deriving Repr, DecidableEq

structure UpdateReply where
  Messages : List Message
  NewMsgID : Int
deriving Repr, DecidableEq

/-- Model of `ChatRoom.Join`: allocate a name, insert the client, append the System
join notice consuming one counter value, reply success. -/
def ChatRoom.Join (cr : ChatRoom) (requestedName : String) (now : Nat) :
    ChatRoom × JoinReply :=
  let chosen := assignName cr requestedName now
  let cl : Client :=
    { ID := chosen, LastSeen := cr.nextID - 1, JoinedAt := now,
      Original := requestedName }
  let sys : Message :=
    { ID := cr.nextID, Sender := "System",
      Content := "User " ++ chosen ++ " joined the chat", Time := now }
  ({ cr with clients := insertKV cr.clients chosen cl,
             logs := cr.logs ++ [sys], nextID := cr.nextID + 1 },
   { Success := true, AssignedName := chosen,
     Message := "Welcome! You are now " ++ chosen })

/-- Model of `ChatRoom.Send`: unknown sender fails with the "user not registered"
error and mutates nothing; otherwise append the chat message, update the
sender's LastSeen to the new id, bump the counter. -/
def ChatRoom.Send (cr : ChatRoom) (id msg : String) (now : Nat) :
    Except String (ChatRoom × SendReply) :=
  match lookupKV cr.clients id with
  | none => .error "user not registered"
  | some _ =>
    let m : Message := { ID := cr.nextID, Sender := id, Content := msg, Time := now }
    .ok ({ cr with clients := setLastSeen cr.clients id m.ID,
                   logs := cr.logs ++ [m], nextID := cr.nextID + 1 },
         { Success := true })

/-- The body of the `for _, m := range cr.logs` scan of `GetUpdates`:
`acc.1` is `newList`, `acc.2` is `maxID`.  Note the `continue` for a
self-sent message happens before `maxID = m.ID`. -/
def updStep (id : String) (lastMsgID : Int) (acc : List Message × Int)
    (m : Message) : List Message × Int :=
  if m.ID > lastMsgID then
    if m.Sender == id then acc
    else (acc.1 ++ [m], m.ID)
  else acc

/-- Model of `ChatRoom.GetUpdates`: unknown caller fails with "unknown client";
otherwise scan the log accumulating the no-echo-filtered messages and the
`maxID` watermark (initialised to `lastMsgID`). -/
def ChatRoom.GetUpdates (cr : ChatRoom) (id : String) (lastMsgID : Int) :
    Except String UpdateReply :=
  if containsKey cr.clients id then
    let r := cr.logs.foldl (updStep id lastMsgID) ([], lastMsgID)
    .ok { Messages := r.1, NewMsgID := r.2 }
  else .error "unknown client"

/-- Model of `ChatRoom.Leave`: an absent id returns nil immediately, leaving the
reply at its zero value (`Success = false`); a present id is deleted and a
System leave notice appended. -/
def ChatRoom.Leave (cr : ChatRoom) (id : String) (now : Nat) :
    ChatRoom × JoinReply :=
  if containsKey cr.clients id = false then
    (cr, { Success := false, AssignedName := "", Message := "" })
  else
    let leaveMsg : Message :=
      { ID := cr.nextID, Sender := "System",
        Content := "User " ++ id ++ " left the chat", Time := now }
    ({ cr with clients := eraseKey cr.clients id,
               logs := cr.logs ++ [leaveMsg], nextID := cr.nextID + 1 },
     { Success := true, AssignedName := "", Message := "Disconnected" })

/-- One RPC call against the room, with its `time.Now()` values made
explicit where the handler reads the clock. -/
inductive Op where
  | join (requestedName : String) (now : Nat)
  | send (id msg : String) (now : Nat)
  | leave (id : String) (now : Nat)
  | getUpdates (id : String) (lastMsgID : Int)
deriving Repr, DecidableEq

/-- The state reached after one call (a failed `Send` mutates nothing;
`GetUpdates` is read-only). -/
def applyOp (cr : ChatRoom) : Op → ChatRoom
  | .join n t => (cr.Join n t).1
  | .send i m t =>
    match cr.Send i m t with
    | .ok p => p.1
    | .error _ => cr
  | .leave i t => (cr.Leave i t).1
  | .getUpdates _ _ => cr

/-- The room state after a sequence of calls starting from a new room. -/
def run (ops : List Op) : ChatRoom :=
  ops.foldl applyOp NewChatRoom

/-! ### Concrete rooms used in the scenario theorems -/

/-- The room in which client "A" has joined (at time 0) and then sent "hi"
(at time 1): its log is the System join notice (id 1) followed by A's own
message (id 2). -/
def roomA : ChatRoom := run [.join "A" 0, .send "A" "hi" 1]

/-- The room in which client "A" alone has joined. -/
def roomB : ChatRoom := run [.join "A" 0]

/-- End-to-end scenario, step 1: Join("") on a new room. -/
def gRoom1 : ChatRoom × JoinReply := NewChatRoom.Join "" 0

/-- End-to-end scenario, step 2: Join("Guest"). -/
def gRoom2 : ChatRoom × JoinReply := gRoom1.1.Join "Guest" 1

/-- End-to-end scenario, step 3: the state after "Guest" sends "hi". -/
def gRoom3 : ChatRoom := applyOp gRoom2.1 (.send "Guest" "hi" 2)

def plainClient (s : String) : Client :=
  { ID := s, LastSeen := 0, JoinedAt := 0, Original := "A" }

/-- A registry in which the base "A", the fallback "A_0" and all 99 probe
candidates "A1".."A99" are taken, so that `assignName` at time 0 must fall
back to the already-present "A_0". -/
def fullRegistry : ChatRoom :=
  { clients :=
      ("A", plainClient "A") :: ("A_0", plainClient "A_0") ::
        (List.range 99).map
          (fun i => ("A" ++ toString (i + 1), plainClient ("A" ++ toString (i + 1)))),
    logs := [], nextID := 1, nameUsage := [] }

/-! ### Characterisation of the GetUpdates scan -/

/-- The delivery predicate of the scan: newer than the cursor and not
self-sent. -/
def updPred (id : String) (lastMsgID : Int) (m : Message) : Bool :=
  decide (m.ID > lastMsgID) && !(m.Sender == id)

/-- The id of the last message of a list, or a default. -/
def lastIdD : List Message → Int → Int
  | [], w => w
  | m :: ms, _ => lastIdD ms m.ID

/-- The log/counter invariant: the message ids are exactly
`1, 2, ..., logs.length` in order, and the counter holds the next id. -/
def goodLog (logs : List Message) (nextID : Int) : Prop :=
  logs.map Message.ID = (List.range logs.length).map (fun i => (i : Int) + 1) ∧
  nextID = (logs.length : Int) + 1

/-- The registry invariant: every stored client carries its own registry
key in its ID field. -/
def clientsInv (cr : ChatRoom) : Prop :=
  ∀ p ∈ cr.clients, p.2.ID = p.1

theorem foldl_updStep (id : String) (last : Int) :
    ∀ (logs : List Message) (acc : List Message) (w : Int),
      logs.foldl (updStep id last) (acc, w) =
        (acc ++ logs.filter (updPred id last),
         lastIdD (logs.filter (updPred id last)) w) := by
  intro logs
  induction logs with
  | nil => intro acc w; simp [lastIdD]
  | cons m ms ih =>
    intro acc w
    by_cases h1 : m.ID > last
    · by_cases h2 : m.Sender = id
      · have hp : updPred id last m = false := by simp [updPred, h2]
        simp [List.filter_cons, hp, updStep, h1, h2, ih]
      · have hp : updPred id last m = true := by simp [updPred, h1, h2]
        simp [List.filter_cons, hp, updStep, h1, h2, ih, lastIdD]
    · have hp : updPred id last m = false := by simp [updPred, h1]
      simp [List.filter_cons, hp, updStep, h1, ih]

theorem getUpdates_ok (cr : ChatRoom) (id : String) (last : Int)
    (h : containsKey cr.clients id = true) :
    cr.GetUpdates id last =
      .ok { Messages := cr.logs.filter (updPred id last),
            NewMsgID := lastIdD (cr.logs.filter (updPred id last)) last } := by
  simp [ChatRoom.GetUpdates, h, foldl_updStep]

theorem lastIdD_getLast (l : List Message) (w : Int) :
    lastIdD l w = ((l.getLast?).map Message.ID).getD w := by
  induction l generalizing w with
  | nil => rfl
  | cons m ms ih =>
    cases ms with
    | nil => simp [lastIdD]
    | cons m2 ms2 => simpa [lastIdD, List.getLast?_cons_cons] using ih m.ID

/-! ### The log/counter invariant (ids are 1,2,3,... and nextID = len+1) -/

theorem goodLog_append (logs : List Message) (n : Int) (m : Message)
    (h : goodLog logs n) (hm : m.ID = n) : goodLog (logs ++ [m]) (n + 1) := by
  obtain ⟨h1, h2⟩ := h
  refine ⟨?_, by simp [h2]⟩
  simp [List.range_succ, h1, hm, h2]

theorem applyOp_goodLog (cr : ChatRoom) (op : Op)
    (h : goodLog cr.logs cr.nextID) :
    goodLog (applyOp cr op).logs (applyOp cr op).nextID := by
  cases op with
  | join n t =>
    simpa [applyOp, ChatRoom.Join] using goodLog_append cr.logs cr.nextID _ h rfl
  | send i m t =>
    cases hl : lookupKV cr.clients i with
    | none => simpa [applyOp, ChatRoom.Send, hl] using h
    | some cl =>
      simpa [applyOp, ChatRoom.Send, hl] using
        goodLog_append cr.logs cr.nextID _ h rfl
  | leave i t =>
    by_cases hc : containsKey cr.clients i = false
    · simpa [applyOp, ChatRoom.Leave, hc] using h
    · simpa [applyOp, ChatRoom.Leave, hc] using
        goodLog_append cr.logs cr.nextID _ h rfl
  | getUpdates i l => simpa [applyOp] using h

theorem foldl_goodLog (ops : List Op) (cr : ChatRoom)
    (h : goodLog cr.logs cr.nextID) :
    goodLog (ops.foldl applyOp cr).logs (ops.foldl applyOp cr).nextID := by
  induction ops generalizing cr with
  | nil => exact h
  | cons op ops ih => exact ih _ (applyOp_goodLog cr op h)

/-! ### The registry invariant (stored Client.ID equals its key) -/

theorem clientsInv_insertKV (cr : ChatRoom) (k : String) (v : Client)
    (h : clientsInv cr) (hv : v.ID = k) :
    ∀ p ∈ insertKV cr.clients k v, p.2.ID = p.1 := by
  intro p hp
  rcases List.mem_append.1 hp with hp | hp
  · exact h p (List.mem_of_mem_filter hp)
  · rcases List.mem_singleton.1 hp with rfl
    exact hv

theorem applyOp_clientsInv (cr : ChatRoom) (op : Op) (h : clientsInv cr) :
    clientsInv (applyOp cr op) := by
  cases op with
  | join n t =>
    intro p hp
    simp only [applyOp, ChatRoom.Join] at hp
    exact clientsInv_insertKV cr (assignName cr n t)
      { ID := assignName cr n t, LastSeen := cr.nextID - 1, JoinedAt := t,
        Original := n } h rfl p hp
  | send i m t =>
    cases hl : lookupKV cr.clients i with
    | none => simpa [applyOp, ChatRoom.Send, hl] using h
    | some cl =>
      intro p hp
      simp only [applyOp, ChatRoom.Send, hl] at hp
      rcases List.mem_map.1 hp with ⟨q, hq, hqe⟩
      by_cases hk : q.1 == i
      · simp only [setLastSeen, hk, if_pos] at hqe
        subst hqe
        exact h q hq
      · simp only [setLastSeen, hk, Bool.false_eq_true, if_neg] at hqe
        subst hqe
        exact h q hq
  | leave i t =>
    by_cases hc : containsKey cr.clients i = false
    · simpa [applyOp, ChatRoom.Leave, hc] using h
    · intro p hp
      simp only [applyOp, ChatRoom.Leave, hc] at hp
      exact h p (List.mem_of_mem_filter hp)
  | getUpdates i l => simpa [applyOp] using h

/-! ### Registry map lemmas -/

theorem lookupKV_append (l1 l2 : List (String × Client)) (k : String) :
    lookupKV (l1 ++ l2) k =
      match lookupKV l1 k with
      | some v => some v
      | none => lookupKV l2 k := by
  induction l1 with
  | nil => rfl
  | cons p ps ih =>
    cases h : p.1 == k with
    | true => simp [lookupKV, h]
    | false => simp [lookupKV, h, ih]

theorem lookupKV_eraseKey_self (l : List (String × Client)) (k : String) :
    lookupKV (eraseKey l k) k = none := by
  induction l with
  | nil => rfl
  | cons p ps ih =>
    by_cases h : p.1 == k
    · simpa [eraseKey, List.filter_cons, h] using ih
    · simpa [eraseKey, List.filter_cons, h, lookupKV] using ih

theorem containsKey_eraseKey_self (l : List (String × Client)) (k : String) :
    containsKey (eraseKey l k) k = false := by
  simp [containsKey, lookupKV_eraseKey_self]

theorem lookupKV_insertKV_self (l : List (String × Client)) (k : String)
    (v : Client) : lookupKV (insertKV l k v) k = some v := by
  simp [insertKV, lookupKV_append, lookupKV_eraseKey_self, lookupKV]

theorem eraseKey_of_not_contains (l : List (String × Client)) (k : String)
    (h : containsKey l k = false) : eraseKey l k = l := by
  induction l with
  | nil => rfl
  | cons p ps ih =>
    cases hk : p.1 == k with
    | true => simp [containsKey, lookupKV, hk] at h
    | false =>
      have h2 : containsKey ps k = false := by
        simpa [containsKey, lookupKV, hk] using h
      have hcons : eraseKey (p :: ps) k = p :: eraseKey ps k := by
        simp [eraseKey, List.filter_cons, hk]
      rw [hcons, ih h2]

theorem length_insertKV_fresh (l : List (String × Client)) (k : String)
    (v : Client) (h : containsKey l k = false) :
    (insertKV l k v).length = l.length + 1 := by
  simp [insertKV, eraseKey_of_not_contains l k h]

theorem lookupKV_setLastSeen_self (l : List (String × Client)) (k : String)
    (v : Int) (cl : Client) (h : lookupKV l k = some cl) :
    lookupKV (setLastSeen l k v) k = some { cl with LastSeen := v } := by
  induction l with
  | nil => simp [lookupKV] at h
  | cons p ps ih =>
    cases hk : p.1 == k with
    | true =>
      have hc : p.2 = cl := by simpa [lookupKV, hk] using h
      simp [setLastSeen, lookupKV, hk, hc]
    | false =>
      have h2 : lookupKV ps k = some cl := by simpa [lookupKV, hk] using h
      simpa [setLastSeen, lookupKV, hk] using ih h2

theorem lookupKV_setLastSeen_other (l : List (String × Client)) (k k2 : String)
    (v : Int) (h : k2 ≠ k) :
    lookupKV (setLastSeen l k v) k2 = lookupKV l k2 := by
  induction l with
  | nil => rfl
  | cons p ps ih =>
    cases hk : p.1 == k with
    | true =>
      have hp : p.1 = k := by simpa using hk
      have hk2 : (p.1 == k2) = false := by
        rw [hp]
        exact beq_eq_false_iff_ne.2 (fun he => h he.symm)
      simpa [setLastSeen, lookupKV, hk, hk2] using ih
    | false =>
      cases hk2 : p.1 == k2 with
      | true => simp [setLastSeen, lookupKV, hk, hk2]
      | false => simpa [setLastSeen, lookupKV, hk, hk2] using ih

/-! ### The probe loop returns the first free candidate -/

theorem probe_first (cs : List (String × Client)) (base : String) :
    ∀ (fuel i j : Nat), i ≤ j → j < i + fuel →
      containsKey cs (base ++ toString j) = false →
      (∀ k, i ≤ k → k < j → containsKey cs (base ++ toString k) = true) →
      probe cs base i fuel = some (base ++ toString j) := by
  intro fuel
  induction fuel with
  | zero =>
    intro i j hij hj _ _
    omega
  | succ fuel ih =>
    intro i j hij hj habs hpre
    by_cases hi : i = j
    · subst hi
      simp [probe, habs]
    · have h1 : containsKey cs (base ++ toString i) = true :=
        hpre i le_rfl (lt_of_le_of_ne hij hi)
      simp only [probe, h1, if_pos]
      exact ih (i + 1) j (by omega) (by omega) habs
        (fun k hk1 hk2 => hpre k (by omega) hk2)

theorem mem_of_getLastOpt (l : List Message) (m : Message)
    (h : l.getLast? = some m) : m ∈ l := by
  rcases List.mem_getLast?_eq_getLast (show m ∈ l.getLast? by simp [h]) with
    ⟨hne, hm⟩
  exact hm ▸ List.getLast_mem hne

theorem foldl_clientsInv (ops : List Op) (cr : ChatRoom) (h : clientsInv cr) :
    clientsInv (ops.foldl applyOp cr) := by
  induction ops generalizing cr with
  | nil => exact h
  | cons op ops ih => exact ih _ (applyOp_clientsInv cr op h)

/-! ### Claim theorems -/

/-- C2: starting from a new room, after every sequence of operations the
log's message ids are exactly 1, 2, ..., n in append order — the counter
starts at 1, each appended message (chat or system) consumes exactly one
counter value, ids are strictly increasing by exactly 1 with no gaps and no
duplicates, the sequence order is ascending id order, and the counter holds
n + 1. -/
theorem log_ids_consecutive (ops : List Op) :
    (run ops).logs.map Message.ID =
      (List.range (run ops).logs.length).map (fun i => (i : Int) + 1) ∧
    (run ops).nextID = ((run ops).logs.length : Int) + 1 :=
  foldl_goodLog ops NewChatRoom ⟨rfl, by decide⟩

/-- C9: the invariant that every stored Client's ID field equals the
registry key under which it is stored holds in a new room, is preserved by
every operation (Join, Send, Leave, GetUpdates), and hence holds in every
reachable room state: looking a client up by name yields a client whose ID
is that name. -/
theorem registry_key_matches_client_id :
    clientsInv NewChatRoom ∧
    (∀ (cr : ChatRoom) (op : Op), clientsInv cr → clientsInv (applyOp cr op)) ∧
    (∀ ops : List Op, clientsInv (run ops)) := by
  have base : clientsInv NewChatRoom := by
    intro p hp
    simp [NewChatRoom] at hp
  exact ⟨base, fun cr op h => applyOp_clientsInv cr op h,
    fun ops => foldl_clientsInv ops NewChatRoom base⟩

/-- C9 witness: the preservation clause applied to a concrete room and
operation. -/
theorem registry_key_matches_client_id_w :
    clientsInv (applyOp roomB (.join "A" 7)) :=
  registry_key_matches_client_id.2.1 roomB (.join "A" 7)
    (by intro p hp; fin_cases hp; rfl)

/-- C3: for a registered caller, GetUpdates returns exactly the log
messages with id greater than lastMsgID whose sender differs from the
caller — the filter of the log by the no-echo predicate, in log order —
hence a self-sent message is never included, for any log contents and any
lastMsgID; and the result is in ascending id order whenever the log is. -/
theorem getUpdates_no_echo_filter (cr : ChatRoom) (id : String) (last : Int)
    (hreg : containsKey cr.clients id = true) :
    ∃ r : UpdateReply, cr.GetUpdates id last = .ok r ∧
      r.Messages = cr.logs.filter (updPred id last) ∧
      (∀ m ∈ r.Messages, m.ID > last ∧ m.Sender ≠ id) ∧
      (∀ m ∈ cr.logs, m.ID > last → m.Sender ≠ id → m ∈ r.Messages) ∧
      (cr.logs.Pairwise (fun a b => a.ID < b.ID) →
        r.Messages.Pairwise (fun a b => a.ID < b.ID)) := by
  refine ⟨_, getUpdates_ok cr id last hreg, rfl, ?_, ?_, ?_⟩
  · intro m hm
    have hp := (List.mem_filter.1 hm).2
    simpa [updPred] using hp
  · intro m hm h1 h2
    exact List.mem_filter.2 ⟨hm, by simp [updPred, h1, h2]⟩
  · intro hp
    exact hp.sublist (List.filter_sublist _)

/-- C3 witness: the filter characterisation at the room where only "A" has
joined, for caller "A" and cursor 0. -/
theorem getUpdates_no_echo_filter_w :
    ∃ r : UpdateReply, roomB.GetUpdates "A" 0 = .ok r ∧
      r.Messages = roomB.logs.filter (updPred "A" 0) ∧
      (∀ m ∈ r.Messages, m.ID > 0 ∧ m.Sender ≠ "A") ∧
      (∀ m ∈ roomB.logs, m.ID > 0 → m.Sender ≠ "A" → m ∈ r.Messages) ∧
      (roomB.logs.Pairwise (fun a b => a.ID < b.ID) →
        r.Messages.Pairwise (fun a b => a.ID < b.ID)) :=
  getUpdates_no_echo_filter roomB "A" 0 (by decide)

/-- C10: for every successful GetUpdates call the returned watermark is at
least the input cursor (it never moves backwards), and when the returned
sequence is non-empty the watermark equals the id of its last message. -/
theorem getUpdates_watermark_monotone (cr : ChatRoom) (id : String)
    (last : Int) (hreg : containsKey cr.clients id = true) :
    ∃ r : UpdateReply, cr.GetUpdates id last = .ok r ∧
      last ≤ r.NewMsgID ∧
      (∀ m : Message, r.Messages.getLast? = some m → r.NewMsgID = m.ID) := by
  refine ⟨_, getUpdates_ok cr id last hreg, ?_, ?_⟩
  · dsimp only
    rw [lastIdD_getLast]
    cases hl : (cr.logs.filter (updPred id last)).getLast? with
    | none => exact le_refl last
    | some m =>
      have hm : m ∈ cr.logs.filter (updPred id last) := mem_of_getLastOpt _ _ hl
      have hpm := (List.mem_filter.1 hm).2
      have hgt : last < m.ID := by
        simp only [updPred, Bool.and_eq_true, decide_eq_true_eq] at hpm
        exact hpm.1
      exact le_of_lt hgt
  · intro m hm
    dsimp only at hm ⊢
    rw [lastIdD_getLast, hm]
    rfl

/-- C10 witness: the watermark relation at the room where "A" has joined
and sent "hi", for caller "A" and cursor 0. -/
theorem getUpdates_watermark_monotone_w :
    ∃ r : UpdateReply, roomA.GetUpdates "A" 0 = .ok r ∧
      (0 : Int) ≤ r.NewMsgID ∧
      (∀ m : Message, r.Messages.getLast? = some m → r.NewMsgID = m.ID) :=
  getUpdates_watermark_monotone roomA "A" 0 (by decide)

/-- C1 counterexample: in the room where "A" joined (System notice, id 1)
and then sent "hi" (id 2), GetUpdates("A", 1) scans the self-sent message
with id 2 > 1 yet returns watermark 1, not ≥ 2: the `continue` of the
no-echo filter skips the `maxID` update, so the watermark does not advance
past messages excluded because their sender is the caller. -/
theorem getUpdates_watermark_stalls_on_self :
    roomA.logs.map (fun m => (m.ID, m.Sender)) = [(1, "System"), (2, "A")] ∧
    roomA.GetUpdates "A" 1 = .ok { Messages := [], NewMsgID := 1 } ∧
    ((1 : Int) < 2) :=
  ⟨rfl, rfl, by decide⟩

/-- C1 amended: for a registered caller the watermark equals the id of the
last delivered message — the last of the log filtered by id > lastMsgID and
sender ≠ caller — or the input lastMsgID when nothing is delivered;
self-sent messages are never returned and do not advance the watermark. -/
theorem getUpdates_watermark_over_delivered (cr : ChatRoom) (A : String)
    (last : Int) (hreg : containsKey cr.clients A = true) :
    ∃ r : UpdateReply, cr.GetUpdates A last = .ok r ∧
      r.NewMsgID = lastIdD (cr.logs.filter (updPred A last)) last ∧
      (∀ m ∈ cr.logs, m.Sender = A → m ∉ r.Messages) ∧
      (r.Messages = [] → r.NewMsgID = last) := by
  refine ⟨_, getUpdates_ok cr A last hreg, rfl, ?_, ?_⟩
  · intro m _ hs hmem
    have hp := (List.mem_filter.1 hmem).2
    simp [updPred, hs] at hp
  · intro he
    dsimp only at he ⊢
    rw [he]
    rfl

/-- C1 amended witness: the watermark characterisation at the room where
"A" has joined and sent "hi", for caller "A" and cursor 1. -/
theorem getUpdates_watermark_over_delivered_w :
    ∃ r : UpdateReply, roomA.GetUpdates "A" 1 = .ok r ∧
      r.NewMsgID = lastIdD (roomA.logs.filter (updPred "A" 1)) 1 ∧
      (∀ m ∈ roomA.logs, m.Sender = "A" → m ∉ r.Messages) ∧
      (r.Messages = [] → r.NewMsgID = 1) :=
  getUpdates_watermark_over_delivered roomA "A" 1 (by decide)

/-- C4 counterexample: Leave of the never-joined id "X" leaves the state
untouched and returns without error, but the reply's Success field is the
Go zero value false — not true as the claim states. -/
theorem leave_unknown_reports_false :
    (NewChatRoom.Leave "X" 0).2.Success = false ∧
    (NewChatRoom.Leave "X" 0).1 = NewChatRoom := by
  decide

/-- C4 amended: Leave of an id that is not a registry key is a no-op that
returns without error, leaving the registry, log and counter unchanged and
appending no System message, but the reply keeps its zero value (Success
false, not true); for a present id, Leave appends exactly the single
removal notice, after which the id is absent, so a second Leave changes
nothing further. -/
theorem leave_noop_and_idempotent (cr : ChatRoom) (id : String)
    (now now2 : Nat) :
    (containsKey cr.clients id = false →
      cr.Leave id now =
        (cr, { Success := false, AssignedName := "", Message := "" })) ∧
    (containsKey cr.clients id = true →
      (cr.Leave id now).1.logs =
        cr.logs ++ [{ ID := cr.nextID, Sender := "System",
                      Content := "User " ++ id ++ " left the chat",
                      Time := now }] ∧
      containsKey (cr.Leave id now).1.clients id = false ∧
      ((cr.Leave id now).1.Leave id now2).1 = (cr.Leave id now).1) := by
  constructor
  · intro h
    simp [ChatRoom.Leave, h]
  · intro h
    have h1 : ¬(containsKey cr.clients id = false) := by simp [h]
    have hcl : (cr.Leave id now).1.clients = eraseKey cr.clients id := by
      simp [ChatRoom.Leave, h1]
    have h2 : containsKey (cr.Leave id now).1.clients id = false := by
      rw [hcl]
      exact containsKey_eraseKey_self cr.clients id
    refine ⟨by simp [ChatRoom.Leave, h1], h2, ?_⟩
    rw [ChatRoom.Leave, if_pos h2]

/-- C4 amended witness: both clauses at concrete inputs — the unknown-id
no-op on a fresh room, and first/second Leave of "A" in the room where "A"
joined. -/
theorem leave_noop_and_idempotent_w :
    (NewChatRoom.Leave "Y" 3 =
      (NewChatRoom, { Success := false, AssignedName := "", Message := "" })) ∧
    ((roomB.Leave "A" 5).1.logs =
        roomB.logs ++ [{ ID := roomB.nextID, Sender := "System",
                         Content := "User " ++ "A" ++ " left the chat",
                         Time := 5 }] ∧
      containsKey (roomB.Leave "A" 5).1.clients "A" = false ∧
      ((roomB.Leave "A" 5).1.Leave "A" 6).1 = (roomB.Leave "A" 5).1) :=
  ⟨(leave_noop_and_idempotent NewChatRoom "Y" 3 4).1 (by decide),
   (leave_noop_and_idempotent roomB "A" 5 6).2 (by decide)⟩

/-- C5: Send by an unregistered id fails with the NotRegistered error and
performs no mutation (the applied state is exactly the input state); Send
by a registered id — with any content, the empty string included — reports
success, appends exactly one message with sender id, the given content and
the fresh counter id, bumps the counter by one, sets that client's LastSeen
to the new message id, and changes no other client's registry entry. -/
theorem send_not_registered_guard (cr : ChatRoom) (id msg : String)
    (now : Nat) :
    (containsKey cr.clients id = false →
      cr.Send id msg now = .error "user not registered" ∧
      applyOp cr (.send id msg now) = cr) ∧
    (∀ cl : Client, lookupKV cr.clients id = some cl →
      ∃ (cr2 : ChatRoom) (rep : SendReply),
        cr.Send id msg now = .ok (cr2, rep) ∧
        rep.Success = true ∧
        cr2.logs = cr.logs ++ [{ ID := cr.nextID, Sender := id,
                                 Content := msg, Time := now }] ∧
        cr2.nextID = cr.nextID + 1 ∧
        lookupKV cr2.clients id = some { cl with LastSeen := cr.nextID } ∧
        (∀ k2, k2 ≠ id → lookupKV cr2.clients k2 = lookupKV cr.clients k2)) := by
  constructor
  · intro h
    cases hl : lookupKV cr.clients id with
    | some cl =>
      rw [containsKey, hl] at h
      simp at h
    | none =>
      exact ⟨by simp [ChatRoom.Send, hl], by simp [applyOp, ChatRoom.Send, hl]⟩
  · intro cl hl
    have hs : cr.Send id msg now =
        .ok ({ cr with clients := setLastSeen cr.clients id cr.nextID,
                       logs := cr.logs ++ [{ ID := cr.nextID, Sender := id,
                                             Content := msg, Time := now }],
                       nextID := cr.nextID + 1 }, { Success := true }) := by
      simp [ChatRoom.Send, hl]
    exact ⟨_, _, hs, rfl, rfl, rfl,
      lookupKV_setLastSeen_self cr.clients id cr.nextID cl hl,
      fun k2 hk2 => lookupKV_setLastSeen_other cr.clients id k2 cr.nextID hk2⟩

/-- C5 witness: the error clause at an unknown id on a fresh room, and the
success clause for "A" sending the empty message in the room where "A"
joined. -/
theorem send_not_registered_guard_w :
    (NewChatRoom.Send "Z" "hey" 9 = .error "user not registered" ∧
      applyOp NewChatRoom (.send "Z" "hey" 9) = NewChatRoom) ∧
    (∃ (cr2 : ChatRoom) (rep : SendReply),
        roomB.Send "A" "" 9 = .ok (cr2, rep) ∧
        rep.Success = true ∧
        cr2.logs = roomB.logs ++ [{ ID := roomB.nextID, Sender := "A",
                                    Content := "", Time := 9 }] ∧
        cr2.nextID = roomB.nextID + 1 ∧
        lookupKV cr2.clients "A" =
          some { ID := "A", LastSeen := roomB.nextID, JoinedAt := 0,
                 Original := "A" } ∧
        (∀ k2, k2 ≠ "A" → lookupKV cr2.clients k2 = lookupKV roomB.clients k2)) :=
  ⟨(send_not_registered_guard NewChatRoom "Z" "hey" 9).1 (by decide),
   (send_not_registered_guard roomB "A" "" 9).2
     { ID := "A", LastSeen := 0, JoinedAt := 0, Original := "A" } (by decide)⟩

/-- C6 counterexample: in the registry holding "A", the fallback name "A_0"
and all probe candidates "A1".."A99", Join("A") at time 0 succeeds and
assigns the time-derived fallback "A_0", which is already a registry key:
the existing client is overwritten, and the registry size stays 101 instead
of increasing by exactly one. -/
theorem join_size_not_increased :
    (fullRegistry.Join "A" 0).2.Success = true ∧
    (fullRegistry.Join "A" 0).2.AssignedName = "A_0" ∧
    containsKey fullRegistry.clients "A_0" = true ∧
    fullRegistry.clients.length = 101 ∧
    (fullRegistry.Join "A" 0).1.clients.length = 101 :=
  ⟨rfl, rfl, rfl, rfl, rfl⟩

/-- C6 amended: Join never fails — for every requested name (the empty
string included) and every room state it reports success with the assigned
name and a welcome message, appends exactly one System message
"User <name> joined the chat" consuming one counter value, and stores a
Client under the assigned name; the registry size increases by exactly one
whenever the assigned name is not already a registry key (which can fail to
hold only when the time-derived fallback collides, in which case the
existing client is overwritten). -/
theorem join_spec (cr : ChatRoom) (req : String) (now : Nat) :
    (cr.Join req now).2.Success = true ∧
    (cr.Join req now).2.AssignedName = assignName cr req now ∧
    (cr.Join req now).2.Message =
      "Welcome! You are now " ++ assignName cr req now ∧
    (cr.Join req now).1.logs =
      cr.logs ++ [{ ID := cr.nextID, Sender := "System",
                    Content := "User " ++ assignName cr req now ++
                      " joined the chat",
                    Time := now }] ∧
    (cr.Join req now).1.nextID = cr.nextID + 1 ∧
    lookupKV (cr.Join req now).1.clients (assignName cr req now) =
      some { ID := assignName cr req now, LastSeen := cr.nextID - 1,
             JoinedAt := now, Original := req } ∧
    (containsKey cr.clients (assignName cr req now) = false →
      (cr.Join req now).1.clients.length = cr.clients.length + 1) := by
  refine ⟨rfl, rfl, rfl, rfl, rfl, ?_, ?_⟩
  · exact lookupKV_insertKV_self cr.clients (assignName cr req now) _
  · intro h
    exact length_insertKV_fresh cr.clients (assignName cr req now) _ h

/-- C6 witness: joining a fresh room as "Bob" reports success and grows the
registry by one. -/
theorem join_spec_w :
    (NewChatRoom.Join "Bob" 0).2.Success = true ∧
    (NewChatRoom.Join "Bob" 0).1.clients.length =
      NewChatRoom.clients.length + 1 :=
  ⟨(join_spec NewChatRoom "Bob" 0).1,
   (join_spec NewChatRoom "Bob" 0).2.2.2.2.2.2 (by decide)⟩

/-- C7: name allocation is deterministic in the registry contents — an
empty requested name behaves exactly as the base "Guest"; a base that is
not a registry key is returned unchanged; when the base is taken and some
candidate base+"1".."99" is free, the first free candidate (probed in
increasing order) is returned; and three consecutive Join("Alice") calls on
an empty room are assigned "Alice", "Alice1", "Alice2". -/
theorem assignName_spec :
    (∀ (cr : ChatRoom) (now : Nat),
      assignName cr "" now = assignName cr "Guest" now) ∧
    (∀ (cr : ChatRoom) (base : String) (now : Nat), base ≠ "" →
      containsKey cr.clients base = false → assignName cr base now = base) ∧
    (∀ (cr : ChatRoom) (base : String) (now : Nat) (j : Nat), base ≠ "" →
      containsKey cr.clients base = true → 1 ≤ j → j ≤ 99 →
      containsKey cr.clients (base ++ toString j) = false →
      (∀ k, 1 ≤ k → k < j → containsKey cr.clients (base ++ toString k) = true) →
      assignName cr base now = base ++ toString j) ∧
    ((NewChatRoom.Join "Alice" 0).2.AssignedName = "Alice" ∧
      ((NewChatRoom.Join "Alice" 0).1.Join "Alice" 1).2.AssignedName =
        "Alice1" ∧
      (((NewChatRoom.Join "Alice" 0).1.Join "Alice" 1).1.Join
          "Alice" 2).2.AssignedName = "Alice2") := by
  refine ⟨?_, ?_, ?_, rfl, rfl, rfl⟩
  · intro cr now
    have e1 : ("" == "") = true := rfl
    have e2 : ("Guest" == "") = false := rfl
    simp [assignName, e1, e2]
  · intro cr base now hb hc
    have e : (base == "") = false := beq_eq_false_iff_ne.2 hb
    simp [assignName, e, hc]
  · intro cr base now j hb hc h1j hj99 habs hpre
    have e : (base == "") = false := beq_eq_false_iff_ne.2 hb
    have hcne : ¬(containsKey cr.clients base = false) := by simp [hc]
    have hp : probe cr.clients base 1 99 = some (base ++ toString j) :=
      probe_first cr.clients base 99 1 j h1j (by omega) habs
        (fun k hk1 hk2 => hpre k hk1 hk2)
    simp [assignName, e, hcne, hp]

/-- C7 witness: in the room where only "A" is registered, the requested
base "A" collides and the first probe candidate "A1" is assigned. -/
theorem assignName_spec_w : assignName roomB "A" 0 = "A" ++ toString 1 :=
  assignName_spec.2.2.1 roomB "A" 0 1 (by decide) (by decide) (by decide)
    (by decide) (by decide)
    (fun k hk1 hk2 => (Nat.lt_irrefl 1 (Nat.lt_of_le_of_lt hk1 hk2)).elim)

/-- C8 counterexample: in the end-to-end scenario the "hi" message receives
id 3 (the two join notices already consumed ids 1 and 2), not 2; and
GetUpdates("Guest1", 0) returns all three messages — the System join notice
for Guest1 carries sender "System", not "Guest1", so the no-echo filter
does not remove it — with NewMsgID = 3, not 2. -/
theorem e2e_counterexample :
    (gRoom3.logs.filter (fun m => m.Content == "hi")).map Message.ID = [3] ∧
    ¬((3 : Int) = 2) ∧
    gRoom3.GetUpdates "Guest1" 0 =
      .ok { Messages := [{ ID := 1, Sender := "System",
                           Content := "User Guest joined the chat", Time := 0 },
                         { ID := 2, Sender := "System",
                           Content := "User Guest1 joined the chat", Time := 1 },
                         { ID := 3, Sender := "Guest",
                           Content := "hi", Time := 2 }],
            NewMsgID := 3 } :=
  ⟨rfl, by decide, rfl⟩

/-- C8 amended: starting from an empty room, Join("") assigns "Guest" and
Join("Guest") assigns "Guest1"; "Guest" then sends "hi" and that message
receives id 3 (the two joins produced ids 1 and 2); GetUpdates("Guest1",
lastMsgID = 0) returns all three messages — including the System join
notice for Guest1, whose sender is "System", not "Guest1" — with
NewMsgID = 3. -/
theorem e2e_corrected :
    gRoom1.2.AssignedName = "Guest" ∧
    gRoom2.2.AssignedName = "Guest1" ∧
    gRoom2.1.Send "Guest" "hi" 2 = .ok (gRoom3, { Success := true }) ∧
    gRoom3.logs.map Message.ID = [1, 2, 3] ∧
    gRoom3.GetUpdates "Guest1" 0 =
      .ok { Messages := gRoom3.logs, NewMsgID := 3 } :=
  ⟨rfl, rfl, rfl, rfl, rfl⟩
